import Mathlib

/-!
Shallow embedding of `src/index.js` of markdown-it-katex-gpt: a markdown-it
plugin that registers a block rule (`mathBlockRule`), an inline rule
(`mathInlineRule`) and a renderer (`mathBlockRenderer`) for KaTeX math spans.

JS strings are modelled as `List Char`.  The external engine call
`katex.renderToString` is modelled as an abstract parameter
`render : … → Option (List Char)`; `none` models the call raising (the
`catch` branch), `some m` models it returning markup `m`.  The slices of
markdown-it parser state that the rules read and write are modelled as
explicit structures (`BlockState`, `InlineState`) threaded through the
functions; mutation becomes returning an updated state.
-/

namespace MarkdownItKatex

/-- JS strings, as lists of characters. -/
abbrev Str := List Char

/-- JS `s.slice(a, b)`: the characters from index `a` (inclusive) to `b`
(exclusive), clamped to the string. -/
def jsSlice (s : Str) (a b : Nat) : Str := (s.take b).drop a

/-- The ASCII whitespace characters recognised by JS `String.prototype.trim`. -/
def isJsWhitespace (c : Char) : Bool :=
  c = ' ' || c = '\t' || c = '\n' || c = '\r' || c = '\x0B' || c = '\x0C'

/-- JS `s.trim()`: strip leading and trailing whitespace. -/
def jsTrim (s : Str) : Str :=
  ((s.dropWhile isJsWhitespace).reverse.dropWhile isJsWhitespace).reverse

/-- JS `haystack.indexOf(needle)` for a literal search string: the first index
at which `needle` occurs as a contiguous substring, or `none` (JS `-1`). -/
def indexOfSub (needle : Str) : Str → Option Nat
  | [] => if needle = [] then some 0 else none
  | c :: rest =>
    if needle.isPrefixOf (c :: rest) then some 0
    else (indexOfSub needle rest).map (· + 1)

/-- One entry of `options.delimiters`: literal left/right markers and the
display-mode flag. -/
structure Delim where
  left : Str
  right : Str
  display : Bool
deriving DecidableEq

/-- The `defaultOptions.delimiters` list from `src/index.js`. -/
def defaultDelimiters : List Delim :=
  [ { left := ['\\', '['], right := ['\\', ']'], display := true },
    { left := ['\\', '('], right := ['\\', ')'], display := false } ]

/-- A markdown-it token, restricted to the fields this plugin creates or
reads: `state.push(type, tag, nesting)` plus `content`, `map`, `block`. -/
structure Token where
  ttype : String
  tag : String
  nesting : Int
  content : Str
  map : Option (Nat × Nat)
  block : Bool
deriving DecidableEq

/-- The slice of markdown-it block-parser state (`StateBlock`) that
`mathBlockRule` reads and writes: the source buffer, the per-line offset
tables `bMarks`/`tShift`/`eMarks`, the current line and the token stream. -/
structure BlockState where
  src : Str
  bMarks : Nat → Nat
  tShift : Nat → Nat
  eMarks : Nat → Nat
  line : Nat
  tokens : List Token

/-- The text of line `i`:
`state.src.slice(state.bMarks[i] + state.tShift[i], state.eMarks[i])`. -/
def lineTextAt (st : BlockState) (i : Nat) : Str :=
  jsSlice st.src (st.bMarks i + st.tShift i) (st.eMarks i)

/-- Outcome of the `while (nextLine < endLine)` search loop of
`mathBlockRule`: `rejected` models the `return false` on trailing content
after `right`, `notFound` models falling out of the loop with `found`
still false, `closed content nextLine` models `found = true` with the
accumulated content and the incremented `nextLine`. -/
inductive LoopResult where
  | rejected : LoopResult
  | notFound : LoopResult
  | closed : Str → Nat → LoopResult
deriving DecidableEq

/-- The body of the line-scanning loop of `mathBlockRule` (lines 63-85 of
`src/index.js`), with an explicit fuel argument; `blockScanLoop` instantiates
the fuel to `endLine - nextLine`, which makes the zero-fuel case coincide
with the loop guard `nextLine < endLine` failing. -/
def blockScanLoopGo (st : BlockState) (right : Str) (endLine : Nat) :
    Nat → Nat → Str → LoopResult
  | 0, _, _ => .notFound
  | fuel + 1, nextLine, content =>
    if nextLine < endLine then
      match indexOfSub right (lineTextAt st nextLine) with
      | some rightPos =>
        if jsTrim ((lineTextAt st nextLine).drop (rightPos + right.length)) ≠ [] then
          .rejected
        else
          .closed (content ++ (lineTextAt st nextLine).take rightPos) (nextLine + 1)
      | none =>
        blockScanLoopGo st right endLine fuel (nextLine + 1)
          (content ++ lineTextAt st nextLine ++ ['\n'])
    else .notFound

/-- The `while (nextLine < endLine)` loop of `mathBlockRule` searching
subsequent lines for the right delimiter. -/
def blockScanLoop (st : BlockState) (right : Str) (endLine nextLine : Nat)
    (content : Str) : LoopResult :=
  blockScanLoopGo st right endLine (endLine - nextLine) nextLine content

/-- Outcome of the structural part of `mathBlockRule` (everything before the
`silent` check and the render call): `noOpen` models `return false` at line
32 (no display delimiter opens the line), `trailing` the two trailing-content
`return false`s (lines 55 and 77), `unclosed` the `if (!found) return false`
(line 88), and `matched content nextLine` a successful structural match. -/
inductive BlockScanOutcome where
  | noOpen : BlockScanOutcome
  | trailing : BlockScanOutcome
  | unclosed : BlockScanOutcome
  | matched : Str → Nat → BlockScanOutcome
deriving DecidableEq

/-- The structural scan of `mathBlockRule` (lines 19-88 of `src/index.js`):
extract the opening line's text, select the first display delimiter whose
`left` prefixes it, then locate `right` on the opening line or on a
subsequent line, accumulating content and rejecting trailing text. -/
def blockFindMatch (displayDelimiters : List Delim) (st : BlockState)
    (startLine endLine : Nat) : BlockScanOutcome :=
  let lineText := lineTextAt st startLine
  match displayDelimiters.find? (fun d => d.left.isPrefixOf lineText) with
  | none => .noOpen
  | some delim =>
    let firstLineContent := lineText.drop delim.left.length
    match indexOfSub delim.right firstLineContent with
    | some rightPosInFirstLine =>
      if jsTrim (firstLineContent.drop (rightPosInFirstLine + delim.right.length)) ≠ [] then
        .trailing
      else
        .matched (firstLineContent.take rightPosInFirstLine) (startLine + 1)
    | none =>
      match blockScanLoop st delim.right endLine (startLine + 1)
          (firstLineContent ++ ['\n']) with
      | .closed content nextLine => .matched content nextLine
      | .rejected => .trailing
      | .notFound => .unclosed

/-- `mathBlockRule(options)` applied to a state: the rule closure filters
`options.delimiters` to the display ones, runs the structural scan, then —
on a structural match — returns true in silent mode, and otherwise calls
the engine on the trimmed content, pushes a `math_block` token and advances
`state.line` on success, or returns false on an engine error (the `catch`). -/
def mathBlockRule (delimiters : List Delim) (render : Str → Option Str)
    (st : BlockState) (startLine endLine : Nat) (silent : Bool) :
    Bool × BlockState :=
  match blockFindMatch (delimiters.filter fun d => d.display) st startLine endLine with
  | .matched content nextLine =>
    if silent then (true, st)
    else
      match render (jsTrim content) with
      | some renderedContent =>
        let token : Token :=
          { ttype := "math_block", tag := "math", nesting := 0,
            content := renderedContent, map := some (startLine, nextLine),
            block := true }
        (true, { st with tokens := st.tokens ++ [token], line := nextLine })
      | none => (false, st)
  | _ => (false, st)

/-- The slice of markdown-it inline-parser state (`StateInline`) that
`mathInlineRule` reads and writes: the source buffer, the cursor `pos`,
the inline bound `posMax` and the token stream. -/
structure InlineState where
  src : Str
  pos : Nat
  posMax : Nat
  tokens : List Token
deriving DecidableEq

/-- The body of the `while (pos < max)` walk of `mathInlineRule` (lines
131-138 of `src/index.js`), with an explicit fuel argument; `inlineWalk`
instantiates the fuel to `max - pos`, which makes the zero-fuel case
coincide with the loop guard `pos < max` failing. -/
def inlineWalkGo (src : Str) (max : Nat) (right : Str) : Nat → Nat → Nat
  | 0, pos => pos
  | fuel + 1, pos =>
    if pos < max then
      if src.get? pos = some '\n' then pos
      else if right.isPrefixOf (src.drop pos) then pos
      else inlineWalkGo src max right fuel (pos + 1)
    else pos

/-- The `while (pos < max)` walk searching for the right delimiter within
the current line: stops at `max`, at a newline, or where `right` starts. -/
def inlineWalk (src : Str) (max : Nat) (right : Str) (pos : Nat) : Nat :=
  inlineWalkGo src max right (max - pos) pos

/-- The pair-iteration of `mathInlineRule` (the `for` loop over
`options.delimiters`): for each pair in order, test `left` at the cursor,
walk forward for `right`, and `continue` to the next pair when the walk
exits at the bound or on a newline; the first pair that survives all the
checks yields the matched pair and the position of `right`. -/
def inlineFindMatch (src : Str) (start max : Nat) :
    List Delim → Option (Delim × Nat)
  | [] => none
  | d :: rest =>
    if d.left.isPrefixOf (src.drop start) then
      let pos := inlineWalk src max d.right (start + d.left.length)
      if pos ≥ max ∨ src.get? pos = some '\n' then
        inlineFindMatch src start max rest
      else if d.right.isPrefixOf (src.drop pos) then some (d, pos)
      else inlineFindMatch src start max rest
    else inlineFindMatch src start max rest

/-- `mathInlineRule(options)` applied to a state (lines 119-166 of
`src/index.js`): run the pair iteration from the cursor; on a structural
match, in non-silent mode call the engine on the enclosed content and push
an `html_inline` token on success (on engine error only log — no token);
in both modes set `state.pos` just past `right` and return true.  With no
match return false with the state untouched. -/
def mathInlineRule (delimiters : List Delim) (render : Str → Bool → Option Str)
    (st : InlineState) (silent : Bool) : Bool × InlineState :=
  match inlineFindMatch st.src st.pos st.posMax delimiters with
  | none => (false, st)
  | some (d, pos) =>
    let st1 :=
      if silent then st
      else
        match render (jsSlice st.src (st.pos + d.left.length) pos) d.display with
        | some renderedContent =>
          let token : Token :=
            { ttype := "html_inline", tag := "", nesting := 0,
              content := renderedContent, map := none, block := false }
          { st with tokens := st.tokens ++ [token] }
        | none => st
    (true, { st1 with pos := pos + d.right.length })

/-- The registered renderer for `math_block` tokens (lines 172-174):
`(tokens, idx) => tokens[idx].content`, with the out-of-range access made
explicit via `Option`. -/
def mathBlockRenderer (tokens : List Token) (idx : Nat) : Option Str :=
  (tokens.get? idx).map Token.content

/-! ### Helper lemmas about the block line-scanning loop -/

/-- The content captured by a multi-line block match between the opening and
the closing line: the concatenation of the line texts of lines `n, …, k-1`,
each followed by a newline. -/
def linesJoinGo (st : BlockState) : Nat → Nat → Str
  | 0, _ => []
  | fuel + 1, n => lineTextAt st n ++ '\n' :: linesJoinGo st fuel (n + 1)

/-- `linesJoin st n k` is the newline-terminated concatenation of the line
texts of lines `n ≤ j < k`. -/
def linesJoin (st : BlockState) (n k : Nat) : Str :=
  linesJoinGo st (k - n) n

theorem linesJoin_self (st : BlockState) (n : Nat) : linesJoin st n n = [] := by
  unfold linesJoin
  rw [Nat.sub_self]
  rfl

theorem linesJoin_step (st : BlockState) {n k : Nat} (h : n < k) :
    linesJoin st n k = lineTextAt st n ++ '\n' :: linesJoin st (n + 1) k := by
  unfold linesJoin
  have h1 : k - n = (k - (n + 1)) + 1 := by omega
  rw [h1]
  rfl

theorem blockScanLoopGo_notFound (st : BlockState) (right : Str) (endLine : Nat) :
    ∀ fuel n content,
    (∀ j, j < endLine → n ≤ j → indexOfSub right (lineTextAt st j) = none) →
    blockScanLoopGo st right endLine fuel n content = .notFound := by
  intro fuel
  induction fuel with
  | zero => intro n content _; rfl
  | succ f ih =>
    intro n content h
    simp only [blockScanLoopGo]
    by_cases hn : n < endLine
    · rw [if_pos hn, h n hn (Nat.le_refl n)]
      exact ih (n + 1) _ (fun j hj hj2 => h j hj (by omega))
    · rw [if_neg hn]

theorem blockScanLoopGo_closed (st : BlockState) (right : Str) (endLine : Nat) :
    ∀ fuel n content k p, k - n < fuel → n ≤ k → k < endLine →
    (∀ j, j < k → n ≤ j → indexOfSub right (lineTextAt st j) = none) →
    indexOfSub right (lineTextAt st k) = some p →
    jsTrim ((lineTextAt st k).drop (p + right.length)) = [] →
    blockScanLoopGo st right endLine fuel n content =
      .closed (content ++ (linesJoin st n k ++ (lineTextAt st k).take p)) (k + 1) := by
  intro fuel
  induction fuel with
  | zero => intro n content k p hfuel _ _ _ _ _; exact absurd hfuel (by omega)
  | succ f ih =>
    intro n content k p hfuel hnk hk hmid hclose hclean
    rcases Nat.eq_or_lt_of_le hnk with heq | hlt
    · subst heq
      simp only [blockScanLoopGo]
      rw [if_pos hk, hclose]
      simp [hclean, linesJoin_self]
    · have hn : n < endLine := Nat.lt_trans hlt hk
      have h0 : indexOfSub right (lineTextAt st n) = none :=
        hmid n hlt (Nat.le_refl n)
      simp only [blockScanLoopGo]
      rw [if_pos hn, h0]
      rw [ih (n + 1) (content ++ lineTextAt st n ++ ['\n']) k p (by omega) hlt hk
        (fun j hj hj2 => hmid j hj (by omega)) hclose hclean]
      rw [linesJoin_step st hlt]
      simp [List.append_assoc]

theorem blockScanLoop_closed (st : BlockState) (right : Str) (endLine : Nat)
    (n : Nat) (content : Str) (k p : Nat) (hnk : n ≤ k) (hk : k < endLine)
    (hmid : ∀ j, j < k → n ≤ j → indexOfSub right (lineTextAt st j) = none)
    (hclose : indexOfSub right (lineTextAt st k) = some p)
    (hclean : jsTrim ((lineTextAt st k).drop (p + right.length)) = []) :
    blockScanLoop st right endLine n content =
      .closed (content ++ (linesJoin st n k ++ (lineTextAt st k).take p)) (k + 1) :=
  blockScanLoopGo_closed st right endLine (endLine - n) n content k p
    (by omega) hnk hk hmid hclose hclean

/-! ### The claims -/

/-- Claim C1, counterexample to the claim as stated.  On the input
`\(x\)` with the default delimiters, an inline scan with
`silentProbe = true` finds the closing `\)` within the line and returns
true, but the inline cursor is 5 afterwards, not the starting 0: the
assignment `state.pos = pos + right.length` runs even in silent mode, so
parser state is mutated. -/
theorem C1_counterexample :
    (mathInlineRule defaultDelimiters (fun _ _ => none)
      { src := ['\\', '(', 'x', '\\', ')'], pos := 0, posMax := 5,
        tokens := [] } true).1 = true ∧
    (mathInlineRule defaultDelimiters (fun _ _ => none)
      { src := ['\\', '(', 'x', '\\', ')'], pos := 0, posMax := 5,
        tokens := [] } true).2.pos = 5 := by
  constructor <;> rfl

/-- Claim C1, amended.  A silent inline scan appends no token and leaves
`src` and `posMax` unchanged, and it returns the same result as the
non-silent scan; but when a match is found the cursor is advanced to just
past `right` exactly as in the non-silent scan (the cursor update is not
guarded by the silent flag). -/
theorem C1_silent_probe (delimiters : List Delim)
    (render : Str → Bool → Option Str) (st : InlineState) :
    (mathInlineRule delimiters render st true).2.tokens = st.tokens ∧
    (mathInlineRule delimiters render st true).2.src = st.src ∧
    (mathInlineRule delimiters render st true).2.posMax = st.posMax ∧
    (mathInlineRule delimiters render st true).1 =
      (mathInlineRule delimiters render st false).1 ∧
    (mathInlineRule delimiters render st true).2.pos =
      (mathInlineRule delimiters render st false).2.pos := by
  cases h : inlineFindMatch st.src st.pos st.posMax delimiters with
  | none => simp [mathInlineRule, h]
  | some dp =>
    obtain ⟨d, pos⟩ := dp
    simp only [mathInlineRule, h]
    cases hr : render (jsSlice st.src (st.pos + d.left.length) pos) d.display <;>
      simp [hr]

/-- Claim C2: a non-silent inline scan that finds a delimiter pair but whose
engine call raises (modelled as `render … = none`) logs only: it appends no
token, still advances the cursor to just past `right`, and returns true —
the span is structurally consumed. -/
theorem C2_inline_render_error (delimiters : List Delim)
    (render : Str → Bool → Option Str) (st : InlineState) (d : Delim) (pos : Nat)
    (hfind : inlineFindMatch st.src st.pos st.posMax delimiters = some (d, pos))
    (hrender : render (jsSlice st.src (st.pos + d.left.length) pos) d.display = none) :
    mathInlineRule delimiters render st false =
      (true, { st with pos := pos + d.right.length }) := by
  simp only [mathInlineRule, hfind, hrender]
  rfl

/-- Witness for C2 at a concrete input: on `\(x\)` with a render function
that always raises, the non-silent inline scan returns true with the cursor
moved from 0 to 5 and the token stream still empty. -/
theorem C2_witness :
    mathInlineRule defaultDelimiters (fun _ _ => none)
      { src := ['\\', '(', 'x', '\\', ')'], pos := 0, posMax := 5,
        tokens := [] } false =
    (true, { src := ['\\', '(', 'x', '\\', ')'], pos := 5, posMax := 5,
             tokens := [] }) :=
  C2_inline_render_error defaultDelimiters (fun _ _ => none)
    { src := ['\\', '(', 'x', '\\', ')'], pos := 0, posMax := 5, tokens := [] }
    { left := ['\\', '('], right := ['\\', ')'], display := false } 3
    (by decide) rfl

/-- Claim C9: the renderer registered for `math_block` tokens is the identity
on the token's precomputed content: it returns exactly the `content` string
stored on the token at the given index. -/
theorem C9_renderer_identity (tokens : List Token) (idx : Nat) (tok : Token)
    (h : tokens.get? idx = some tok) :
    mathBlockRenderer tokens idx = some tok.content := by
  unfold mathBlockRenderer
  rw [h]
  rfl

/-- Witness for C9 at a concrete input: a one-token stream whose block-math
token holds content `m`, rendered at index 0, yields exactly `m`. -/
theorem C9_witness :
    mathBlockRenderer
      [{ ttype := "math_block", tag := "math", nesting := 0, content := ['m'],
         map := some (0, 1), block := true }] 0 = some ['m'] :=
  C9_renderer_identity
    [{ ttype := "math_block", tag := "math", nesting := 0, content := ['m'],
       map := some (0, 1), block := true }] 0
    { ttype := "math_block", tag := "math", nesting := 0, content := ['m'],
      map := some (0, 1), block := true } rfl

/-- Claim C3: a non-silent block scan with a valid structural match whose
engine call raises (modelled as `render … = none`) returns false atomically:
the returned state is the input state, so no token is appended and
`state.line` is not advanced — the engine call happens before any mutation. -/
theorem C3_block_render_error (delimiters : List Delim)
    (render : Str → Option Str) (st : BlockState) (startLine endLine : Nat)
    (content : Str) (nextLine : Nat)
    (hmatch : blockFindMatch (delimiters.filter fun d => d.display)
      st startLine endLine = .matched content nextLine)
    (hrender : render (jsTrim content) = none) :
    mathBlockRule delimiters render st startLine endLine false = (false, st) := by
  simp [mathBlockRule, hmatch, hrender]

/-- A one-line document `\[x\]`: every line-offset query points at the
single line spanning offsets 0-5. -/
def oneLineMathSt : BlockState :=
  { src := ['\\', '[', 'x', '\\', ']'], bMarks := fun _ => 0,
    tShift := fun _ => 0, eMarks := fun _ => 5, line := 0, tokens := [] }

/-- Witness for C3 at a concrete input: on the one-line document `\[x\]`
with an engine that always raises, the non-silent block scan returns false
and leaves the state untouched. -/
theorem C3_witness :
    mathBlockRule defaultDelimiters (fun _ => none) oneLineMathSt 0 1 false =
      (false, oneLineMathSt) :=
  C3_block_render_error defaultDelimiters (fun _ => none) oneLineMathSt 0 1
    ['x'] 1 (by decide) rfl

/-- Claim C4: a block scan that finds `right` — on the opening line or on a
later line — followed on that same line by text that is non-empty after
trimming returns false with the state untouched, for any silent flag and
any engine. -/
theorem C4_trailing_content (delimiters : List Delim)
    (render : Str → Option Str) (st : BlockState) (startLine endLine : Nat)
    (silent : Bool) (delim : Delim) (rpos : Nat)
    (hd : (delimiters.filter fun d => d.display).find?
      (fun d => d.left.isPrefixOf (lineTextAt st startLine)) = some delim)
    (htrail :
      (indexOfSub delim.right ((lineTextAt st startLine).drop delim.left.length) =
          some rpos ∧
        jsTrim (((lineTextAt st startLine).drop delim.left.length).drop
          (rpos + delim.right.length)) ≠ []) ∨
      (indexOfSub delim.right ((lineTextAt st startLine).drop delim.left.length) =
          none ∧
        blockScanLoop st delim.right endLine (startLine + 1)
          ((lineTextAt st startLine).drop delim.left.length ++ ['\n']) =
          .rejected)) :
    mathBlockRule delimiters render st startLine endLine silent = (false, st) := by
  have hfm : blockFindMatch (delimiters.filter fun d => d.display)
      st startLine endLine = .trailing := by
    rcases htrail with ⟨h1, h2⟩ | ⟨h1, h2⟩
    · simp only [blockFindMatch, hd, h1]
      rw [if_pos h2]
    · simp only [blockFindMatch, hd, h1, h2]
  simp [mathBlockRule, hfm]

/-- A one-line document `\[x\] t`: the closing `\]` is followed by trailing
text on the same line. -/
def trailingMathSt : BlockState :=
  { src := ['\\', '[', 'x', '\\', ']', ' ', 't'], bMarks := fun _ => 0,
    tShift := fun _ => 0, eMarks := fun _ => 7, line := 0, tokens := [] }

/-- Witness for C4 at a concrete input: on `\[x\] t` the block scan returns
false with the state untouched even though the engine would succeed. -/
theorem C4_witness :
    mathBlockRule defaultDelimiters (fun s => some s) trailingMathSt 0 1 false =
      (false, trailingMathSt) :=
  C4_trailing_content defaultDelimiters (fun s => some s) trailingMathSt 0 1
    false { left := ['\\', '['], right := ['\\', ']'], display := true } 1
    (by decide) (Or.inl ⟨by decide, by decide⟩)

/-- The block state a successful non-silent block scan produces: a
`math_block` token carrying the rendered content and the line range is
appended, and `state.line` moves to `nextLine`. -/
def pushBlockToken (st : BlockState) (renderedContent : Str)
    (startLine nextLine : Nat) : BlockState :=
  let token : Token :=
    { ttype := "math_block", tag := "math", nesting := 0,
      content := renderedContent, map := some (startLine, nextLine),
      block := true }
  { st with tokens := st.tokens ++ [token], line := nextLine }

/-- Claim C5: for a multi-line block match — opening pair `delim` matched on
`startLine`, no `right` on the opening line, none on the intermediate lines,
and the first `right` of line `k` at position `p` with a clean close — the
captured raw content is the opening line's remainder after `left`, a
newline, each intermediate line verbatim followed by a newline, then line
`k`'s prefix before `right`; and the non-silent rule passes exactly the
trimmed capture to the engine, appending a token and advancing the line on
success. -/
theorem C5_multiline_content (delimiters : List Delim)
    (render : Str → Option Str) (st : BlockState)
    (startLine endLine k p : Nat) (delim : Delim)
    (hd : (delimiters.filter fun d => d.display).find?
      (fun d => d.left.isPrefixOf (lineTextAt st startLine)) = some delim)
    (hfirst : indexOfSub delim.right
      ((lineTextAt st startLine).drop delim.left.length) = none)
    (hnk : startLine + 1 ≤ k) (hk : k < endLine)
    (hmid : ∀ j, j < k → startLine + 1 ≤ j →
      indexOfSub delim.right (lineTextAt st j) = none)
    (hclose : indexOfSub delim.right (lineTextAt st k) = some p)
    (hclean : jsTrim ((lineTextAt st k).drop (p + delim.right.length)) = []) :
    blockFindMatch (delimiters.filter fun d => d.display) st startLine endLine =
      .matched ((lineTextAt st startLine).drop delim.left.length ++ '\n' ::
        (linesJoin st (startLine + 1) k ++ (lineTextAt st k).take p)) (k + 1) ∧
    mathBlockRule delimiters render st startLine endLine false =
      (match render (jsTrim ((lineTextAt st startLine).drop delim.left.length ++
          '\n' :: (linesJoin st (startLine + 1) k ++ (lineTextAt st k).take p))) with
       | some renderedContent =>
         (true, pushBlockToken st renderedContent startLine (k + 1))
       | none => (false, st)) := by
  have hloop := blockScanLoop_closed st delim.right endLine (startLine + 1)
    ((lineTextAt st startLine).drop delim.left.length ++ ['\n']) k p hnk hk
    hmid hclose hclean
  have hfm : blockFindMatch (delimiters.filter fun d => d.display)
      st startLine endLine =
      .matched ((lineTextAt st startLine).drop delim.left.length ++ '\n' ::
        (linesJoin st (startLine + 1) k ++ (lineTextAt st k).take p)) (k + 1) := by
    simp only [blockFindMatch, hd, hfirst, hloop]
    simp [List.append_assoc]
  refine ⟨hfm, ?_⟩
  simp only [mathBlockRule, hfm]
  cases hr : render (jsTrim ((lineTextAt st startLine).drop delim.left.length ++
      '\n' :: (linesJoin st (startLine + 1) k ++ (lineTextAt st k).take p))) <;>
    simp [hr, pushBlockToken]

/-- The three-line document `\[` / `x+y` / `\]`, with its markdown-it line
offset tables. -/
def threeLineMathSt : BlockState :=
  { src := ['\\', '[', '\n', 'x', '+', 'y', '\n', '\\', ']'],
    bMarks := fun i => [0, 3, 7].getD i 0, tShift := fun _ => 0,
    eMarks := fun i => [2, 6, 9].getD i 0, line := 0, tokens := [] }

/-- Witness for C5 at a concrete input: on the three-line document
`\[` / `x+y` / `\]` the captured content is `"\nx+y\n"`, and with an
identity engine the rule appends a token whose content is the trimmed
capture `"x+y"` and advances the line to 3. -/
theorem C5_witness :
    blockFindMatch (defaultDelimiters.filter fun d => d.display)
      threeLineMathSt 0 3 = .matched ['\n', 'x', '+', 'y', '\n'] 3 ∧
    mathBlockRule defaultDelimiters (fun s => some s) threeLineMathSt 0 3 false =
      (true, pushBlockToken threeLineMathSt ['x', '+', 'y'] 0 3) :=
  C5_multiline_content defaultDelimiters (fun s => some s) threeLineMathSt
    0 3 2 0 { left := ['\\', '['], right := ['\\', ']'], display := true }
    (by decide) (by decide) (by decide) (by decide) (by decide) (by decide)
    (by decide)

/-- Claim C6: a block scan whose opening delimiter matches but for which no
line before `endLine` contains `right` returns false with the state
untouched, for any silent flag and any engine — the partially accumulated
content buffer is discarded without observable effect. -/
theorem C6_unclosed_block (delimiters : List Delim)
    (render : Str → Option Str) (st : BlockState) (startLine endLine : Nat)
    (silent : Bool) (delim : Delim)
    (hd : (delimiters.filter fun d => d.display).find?
      (fun d => d.left.isPrefixOf (lineTextAt st startLine)) = some delim)
    (hfirst : indexOfSub delim.right
      ((lineTextAt st startLine).drop delim.left.length) = none)
    (hrest : ∀ j, j < endLine → startLine + 1 ≤ j →
      indexOfSub delim.right (lineTextAt st j) = none) :
    mathBlockRule delimiters render st startLine endLine silent = (false, st) := by
  have hloop : blockScanLoop st delim.right endLine (startLine + 1)
      ((lineTextAt st startLine).drop delim.left.length ++ ['\n']) = .notFound := by
    unfold blockScanLoop
    exact blockScanLoopGo_notFound st delim.right endLine _ (startLine + 1) _ hrest
  have hfm : blockFindMatch (delimiters.filter fun d => d.display)
      st startLine endLine = .unclosed := by
    simp only [blockFindMatch, hd, hfirst, hloop]
  simp [mathBlockRule, hfm]

/-- A one-line document `\[x` whose display opener is never closed. -/
def unclosedMathSt : BlockState :=
  { src := ['\\', '[', 'x'], bMarks := fun _ => 0, tShift := fun _ => 0,
    eMarks := fun _ => 3, line := 0, tokens := [] }

/-- Witness for C6 at a concrete input: on the unclosed one-line document
`\[x` the block scan returns false with the state untouched. -/
theorem C6_witness :
    mathBlockRule defaultDelimiters (fun s => some s) unclosedMathSt 0 1 false =
      (false, unclosedMathSt) :=
  C6_unclosed_block defaultDelimiters (fun s => some s) unclosedMathSt 0 1
    false { left := ['\\', '['], right := ['\\', ']'], display := true }
    (by decide) (by decide) (by decide)

/-- Claim C7: the block scanner considers only display pairs, selects the
first (in declaration order) whose `left` literally prefixes the opening
line; with no such pair it returns false immediately with the state
untouched; and once a pair is selected the scan behaves exactly as if that
pair were the only configured one — there is no fallback to another pair. -/
theorem C7_display_pair_selection (delimiters : List Delim)
    (render : Str → Option Str) (st : BlockState) (startLine endLine : Nat)
    (silent : Bool) :
    ((delimiters.filter fun d => d.display).find?
        (fun d => d.left.isPrefixOf (lineTextAt st startLine)) = none →
      mathBlockRule delimiters render st startLine endLine silent = (false, st)) ∧
    (∀ delim, (delimiters.filter fun d => d.display).find?
        (fun d => d.left.isPrefixOf (lineTextAt st startLine)) = some delim →
      delim.display = true ∧
      delim.left.isPrefixOf (lineTextAt st startLine) = true ∧
      mathBlockRule delimiters render st startLine endLine silent =
        mathBlockRule [delim] render st startLine endLine silent) := by
  constructor
  · intro hnone
    have hfm : blockFindMatch (delimiters.filter fun d => d.display)
        st startLine endLine = .noOpen := by
      simp only [blockFindMatch, hnone]
    simp [mathBlockRule, hfm]
  · intro delim hfind
    have hpred : delim.left.isPrefixOf (lineTextAt st startLine) = true := by
      have h := List.find?_some hfind
      simpa using h
    have hmem : delim ∈ delimiters.filter fun d => d.display :=
      List.mem_of_find?_eq_some hfind
    have hdisp : delim.display = true := by
      have := (List.mem_filter.mp hmem).2
      simpa using this
    refine ⟨hdisp, hpred, ?_⟩
    have h1 : ([delim].filter fun d => d.display) = [delim] := by
      simp [List.filter, hdisp]
    have h2 : ([delim].find? fun d => d.left.isPrefixOf (lineTextAt st startLine)) =
        some delim := by
      simp [List.find?, hpred]
    have h3 : blockFindMatch ([delim].filter fun d => d.display)
        st startLine endLine =
        blockFindMatch (delimiters.filter fun d => d.display)
          st startLine endLine := by
      rw [h1]
      simp only [blockFindMatch, h2, hfind]
    unfold mathBlockRule
    rw [h3]

/-- A one-line document `hello` that opens with no configured delimiter. -/
def plainTextSt : BlockState :=
  { src := ['h', 'e', 'l', 'l', 'o'], bMarks := fun _ => 0,
    tShift := fun _ => 0, eMarks := fun _ => 5, line := 0, tokens := [] }

/-- Witness for C7 at concrete inputs: on `hello` no display pair opens and
the block scan returns false with the state untouched; on `\[x\]` the scan
behaves exactly as with the selected `\[`/`\]` pair alone. -/
theorem C7_witness :
    mathBlockRule defaultDelimiters (fun s => some s) plainTextSt 0 1 false =
      (false, plainTextSt) ∧
    mathBlockRule defaultDelimiters (fun s => some s) oneLineMathSt 0 1 false =
      mathBlockRule [{ left := ['\\', '['], right := ['\\', ']'], display := true }]
        (fun s => some s) oneLineMathSt 0 1 false :=
  ⟨(C7_display_pair_selection defaultDelimiters (fun s => some s) plainTextSt
      0 1 false).1 (by decide),
   ((C7_display_pair_selection defaultDelimiters (fun s => some s) oneLineMathSt
      0 1 false).2
      { left := ['\\', '['], right := ['\\', ']'], display := true }
      (by decide)).2.2⟩

/-- Claim C8: in the inline scanner, a pair whose `left` matches at the
cursor but whose forward walk stops at the bound or on a newline fails for
that pair only — the iteration continues with the remaining pairs at the
same starting cursor; a pair whose `left` does not match is likewise
skipped; and if no configured pair matches, the scan returns false with the
state (in particular the cursor) unchanged. -/
theorem C8_inline_pair_iteration (src : Str) (start mx : Nat) (d : Delim)
    (rest : List Delim) (delimiters : List Delim)
    (render : Str → Bool → Option Str) (st : InlineState) (silent : Bool) :
    (d.left.isPrefixOf (src.drop start) = true →
      (inlineWalk src mx d.right (start + d.left.length) ≥ mx ∨
        src.get? (inlineWalk src mx d.right (start + d.left.length)) = some '\n') →
      inlineFindMatch src start mx (d :: rest) =
        inlineFindMatch src start mx rest) ∧
    (d.left.isPrefixOf (src.drop start) = false →
      inlineFindMatch src start mx (d :: rest) =
        inlineFindMatch src start mx rest) ∧
    (inlineFindMatch st.src st.pos st.posMax delimiters = none →
      mathInlineRule delimiters render st silent = (false, st)) := by
  refine ⟨?_, ?_, ?_⟩
  · intro hp hcond
    simp only [inlineFindMatch, hp, if_true]
    rw [if_pos hcond]
  · intro hp
    simp [inlineFindMatch, hp]
  · intro hnone
    simp [mathInlineRule, hnone]

/-- Witness for C8 at concrete inputs: on `\(x` (no closing `\)` before the
end) the `\(`/`\)` pair fails and the iteration falls through to the
remaining pairs; on `hi` no pair matches and the inline scan returns false
with the state unchanged. -/
theorem C8_witness :
    inlineFindMatch ['\\', '(', 'x'] 0 3
      [{ left := ['\\', '('], right := ['\\', ')'], display := false }] =
      inlineFindMatch ['\\', '(', 'x'] 0 3 [] ∧
    mathInlineRule defaultDelimiters (fun _ _ => none)
      { src := ['h', 'i'], pos := 0, posMax := 2, tokens := [] } false =
      (false, { src := ['h', 'i'], pos := 0, posMax := 2, tokens := [] }) :=
  ⟨(C8_inline_pair_iteration ['\\', '(', 'x'] 0 3
      { left := ['\\', '('], right := ['\\', ')'], display := false } []
      defaultDelimiters (fun _ _ => none)
      { src := ['h', 'i'], pos := 0, posMax := 2, tokens := [] } false).1
      (by decide) (by decide),
   (C8_inline_pair_iteration ['\\', '(', 'x'] 0 3
      { left := ['\\', '('], right := ['\\', ')'], display := false } []
      defaultDelimiters (fun _ _ => none)
      { src := ['h', 'i'], pos := 0, posMax := 2, tokens := [] } false).2.2
      (by decide)⟩

/-- Claim C10: only the first character of the candidate closing delimiter is
required to lie strictly before `posMax`.  On `\(x\)` with `posMax = 4`, the
two-character `\)` begins at position 3 = `posMax - 1` and its second
character sits at position 4 = `posMax`; the scan still reports a match and
sets the cursor to 5, strictly beyond `posMax`. -/
theorem C10_posMax_boundary :
    (mathInlineRule defaultDelimiters (fun _ _ => none)
      { src := ['\\', '(', 'x', '\\', ')'], pos := 0, posMax := 4,
        tokens := [] } true).1 = true ∧
    (mathInlineRule defaultDelimiters (fun _ _ => none)
      { src := ['\\', '(', 'x', '\\', ')'], pos := 0, posMax := 4,
        tokens := [] } true).2.pos = 5 ∧ 4 < 5 := by
  refine ⟨rfl, rfl, ?_⟩
  decide

end MarkdownItKatex
